import Mathlib

/-!
Verification development for the DHL eCommerce fulfillment plugin.

The subject is the carrier-agnostic packing / parcel-type-selection core:

* `selectOptimalParcelType` (src/dhl-api/get-fulfillment-options.ts),
* `selectParcelTypeForPackagesFromCapabilities` and its helpers `sort3`,
  `dimsFit` (get-fulfillment-options, second copy),
* the bin packer `packItemsIntoBoxes` and its helpers `sortDims`,
  `volumeCm3`, `getWeightGramsFromUnknownItem`, `getDimsCmFromUnknownItem`,
  `getUnitItems`, `fitsUnitInBox`, `fitsUnitInPackage`
  (src/providers/dhl/box-selection.ts).

Modelling conventions:
* JavaScript `number` values are modelled as rationals (`ℚ`); all weight and
  dimension arithmetic in the source is +, *, /, comparisons, `Math.max` and
  sorting, which are exact on rationals.
* `undefined` / missing fields are modelled as `Option`.
* Line-item quantities are modelled as natural numbers (`ℕ`): the source reads
  `quantity` with `typeof q === 'number' ? q : 1` and uses it both as a loop
  bound (`for i < quantity`) and as a multiplication factor; its domain in the
  platform is a positive integer count.
* JavaScript's `Array.prototype.sort` (stable) is modelled by
  `List.insertionSort`, which is stable for a total preorder.
-/

namespace DhlPlugin

/-! ### Parcel type configurations (get-fulfillment-options.ts) -/

/-- `ParcelTypeConfig` from get-fulfillment-options.ts: a tier key together
with its inclusive weight range in kilograms. -/
structure ParcelTypeConfig where
  key : String
  min_weight_kg : ℚ
  max_weight_kg : ℚ
deriving Repr, DecidableEq

/-- Comparator used by `selectOptimalParcelType`'s sort:
`(a, b) => a.max_weight_kg - b.max_weight_kg`, i.e. ascending max weight. -/
def tierLe (a b : ParcelTypeConfig) : Prop :=
  a.max_weight_kg ≤ b.max_weight_kg

instance : DecidableRel tierLe := fun a b =>
  inferInstanceAs (Decidable (a.max_weight_kg ≤ b.max_weight_kg))

/-- Predicate of the `find` in `selectOptimalParcelType`:
`weightKg >= pt.min_weight_kg && weightKg <= pt.max_weight_kg`. -/
def tierHolds (weightKg : ℚ) (pt : ParcelTypeConfig) : Bool :=
  decide (pt.min_weight_kg ≤ weightKg) && decide (weightKg ≤ pt.max_weight_kg)

/-- The tier record selected by `selectOptimalParcelType` before projecting to
its `key` (`suitable` in the source). -/
def selectOptimalParcelTypeTier (parcelTypes : List ParcelTypeConfig)
    (weightKg : ℚ) : Option ParcelTypeConfig :=
  let sorted := List.insertionSort tierLe parcelTypes
  sorted.find? (tierHolds weightKg)

/-- `selectOptimalParcelType(parcelTypes, weightKg)`: sort tiers by
`max_weight_kg` ascending, return the key of the first tier whose inclusive
weight range contains `weightKg`; `undefined` when none does. -/
def selectOptimalParcelType (parcelTypes : List ParcelTypeConfig)
    (weightKg : ℚ) : Option String :=
  (selectOptimalParcelTypeTier parcelTypes weightKg).map (·.key)

/-! ### Line items read defensively (box-selection.ts) -/

/-- The fields of a variant record that the packing code reads:
`weight` (grams) and `length`/`width`/`height` (cm), each possibly absent. -/
structure Variant where
  weight : Option ℚ := none
  length : Option ℚ := none
  width : Option ℚ := none
  height : Option ℚ := none
deriving Repr, DecidableEq

/-- The single field of a product record the packing code reads. -/
structure ProductRec where
  weight : Option ℚ := none
deriving Repr, DecidableEq

/-- The nested `line_item` shape (provider path). -/
structure NestedLineItem where
  variant : Option Variant := none
  product : Option ProductRec := none
deriving Repr, DecidableEq

/-- An opaque line item as the packing code reads it: the source takes
`unknown` and optionally reads `quantity`, `line_item.variant`,
`line_item.product`, `variant` and (never, see C3) a top-level `product`. -/
structure Item where
  quantity : Option ℕ := none
  line_item : Option NestedLineItem := none
  variant : Option Variant := none
  product : Option ProductRec := none
deriving Repr, DecidableEq

/-- `typeof anyItem?.quantity === 'number' ? anyItem.quantity : 1`. -/
def itemQuantity (item : Item) : ℕ :=
  item.quantity.getD 1

/-- `anyItem?.line_item?.variant?.weight` (w1 in the source). -/
def itemW1 (item : Item) : Option ℚ :=
  (item.line_item.bind (·.variant)).bind (·.weight)

/-- `anyItem?.line_item?.product?.weight` (w2 in the source). -/
def itemW2 (item : Item) : Option ℚ :=
  (item.line_item.bind (·.product)).bind (·.weight)

/-- `anyItem?.variant?.weight` (w3 in the source). -/
def itemW3 (item : Item) : Option ℚ :=
  item.variant.bind (·.weight)

/-- `getWeightGramsFromUnknownItem`: resolve the per-unit weight by the chain
`typeof w1 === 'number' ? w1 : typeof w2 === 'number' ? w2 : typeof w3 === 'number' ? w3 : 0`
and multiply by the quantity. -/
def getWeightGramsFromUnknownItem (item : Item) : ℚ :=
  let weight : ℚ :=
    match itemW1 item with
    | some w => w
    | none =>
      match itemW2 item with
      | some w => w
      | none =>
        match itemW3 item with
        | some w => w
        | none => 0
  weight * (itemQuantity item : ℚ)

/-- The per-unit weight resolution chain, stated standalone: first numeric
value among `line_item.variant.weight`, then `line_item.product.weight`, then
`variant.weight`; 0 grams when none is present. Used to state the (amended)
precedence claim about the two places the source spells this chain out. -/
def resolveWeightGrams (item : Item) : ℚ :=
  match itemW1 item with
  | some w => w
  | none =>
    match itemW2 item with
    | some w => w
    | none =>
      match itemW3 item with
      | some w => w
      | none => 0

/-- Modelled from the spec's words, for comparison with the source's resolver:
the spec claims the precedence order "variant weight, then product weight, then
a nested line_item variant/product weight". -/
def specOrderWeightGrams (item : Item) : ℚ :=
  match itemW3 item with
  | some w => w
  | none =>
    match item.product.bind (·.weight) with
    | some w => w
    | none =>
      match itemW1 item with
      | some w => w
      | none =>
        match itemW2 item with
        | some w => w
        | none => 0

/-! ### Geometry helpers (box-selection.ts) -/

/-- Item dimensions in centimeters. -/
structure ItemDimsCm where
  length_cm : ℚ
  width_cm : ℚ
  height_cm : ℚ
deriving Repr, DecidableEq

/-- `volumeCm3(d) = d.length_cm * d.width_cm * d.height_cm`. -/
def volumeCm3 (d : ItemDimsCm) : ℚ :=
  d.length_cm * d.width_cm * d.height_cm

/-- Ascending numeric sort of a 3-element list, as done by
`[...dims].sort((a, b) => a - b)`. -/
def sortList3 (l : List ℚ) : List ℚ :=
  List.insertionSort (· ≤ ·) l

/-- `sortDims`: sort the three dimensions ascending and read them back by
index (`[s[0], s[1], s[2]]`; the indices always exist, the `0` defaults are
never reached). -/
def sortDims (dims : ℚ × ℚ × ℚ) : ℚ × ℚ × ℚ :=
  let s := sortList3 [dims.1, dims.2.1, dims.2.2]
  (s.getD 0 0, s.getD 1 0, s.getD 2 0)

/-- Componentwise `≤` of sorted dimension triples, as spelled out in
`fitsUnitInBox`, `fitsUnitInPackage` and `dimsFit`:
`a[0] <= b[0] && a[1] <= b[1] && a[2] <= b[2]`. -/
def tripleLe (a b : ℚ × ℚ × ℚ) : Bool :=
  decide (a.1 ≤ b.1) && decide (a.2.1 ≤ b.2.1) && decide (a.2.2 ≤ b.2.2)

/-! ### Box templates (modules/setting/schema.ts) -/

/-- Interior dimensions of a box template (cm). -/
structure InnerCm where
  length : ℚ
  width : ℚ
  height : ℚ
deriving Repr, DecidableEq

/-- `DhlBox` from the settings schema. `id`, `name` and `dhl_parcel_type`
are carried but never consulted by the packing algorithm. -/
structure DhlBox where
  id : String := ""
  name : String := ""
  inner_cm : InnerCm
  max_weight_kg : Option ℚ := none
  dhl_parcel_type : String := ""
deriving Repr, DecidableEq

/-- Interior volume of a box,
`box.inner_cm.length * box.inner_cm.width * box.inner_cm.height`. -/
def boxVolume (box : DhlBox) : ℚ :=
  box.inner_cm.length * box.inner_cm.width * box.inner_cm.height

/-- Comparator of the box sort in `packItemsIntoBoxes` and
`selectBoxForItems`: ascending interior volume. -/
def boxLe (a b : DhlBox) : Prop :=
  boxVolume a ≤ boxVolume b

instance : DecidableRel boxLe := fun a b =>
  inferInstanceAs (Decidable (boxVolume a ≤ boxVolume b))

/-- Weight-ceiling test common to `fitsUnitInBox` and `fitsUnitInPackage`:
`typeof max === 'number' && w > max` (false when the box has no ceiling). -/
def weightExceeds (w : ℚ) (maxW : Option ℚ) : Bool :=
  match maxW with
  | some m => decide (m < w)
  | none => false

/-! ### Unit expansion (box-selection.ts) -/

/-- `getDimsCmFromUnknownItem` (dims part): read the variant as
`anyItem?.line_item?.variant ?? anyItem?.variant` and keep the dimensions only
when all three of `length`, `width`, `height` are numbers. (The source also
returns the quantity, read identically to `itemQuantity`.) -/
def getDimsCmFromUnknownItem (item : Item) : Option ItemDimsCm :=
  let v : Option Variant :=
    match item.line_item.bind (·.variant) with
    | some v => some v
    | none => item.variant
  match v with
  | none => none
  | some v =>
    match v.length, v.width, v.height with
    | some l, some w, some h => some ⟨l, w, h⟩
    | _, _, _ => none

/-- One expanded physical unit (`Unit` in the source; renamed because `Unit`
is taken in Lean). -/
structure PackUnit where
  weight_kg : ℚ
  dims : Option ItemDimsCm := none
  volume_cm3 : ℚ := 0
deriving Repr, DecidableEq

/-- The unit produced for one instance of an item in `getUnitItems`'s loop:
grams from the w1/w2/w3 chain divided by 1000, dims from
`getDimsCmFromUnknownItem`, volume 0 when dims are absent. -/
def mkUnit (item : Item) : PackUnit :=
  let grams : ℚ :=
    match itemW1 item with
    | some w => w
    | none =>
      match itemW2 item with
      | some w => w
      | none =>
        match itemW3 item with
        | some w => w
        | none => 0
  let dims := getDimsCmFromUnknownItem item
  { weight_kg := grams / 1000
    dims := dims
    volume_cm3 :=
      match dims with
      | some d => volumeCm3 d
      | none => 0 }

/-- The quantity-expansion loop of `getUnitItems`: each item is pushed
`quantity` times. -/
def expandUnits : List Item → List PackUnit
  | [] => []
  | item :: rest => List.replicate (itemQuantity item) (mkUnit item) ++ expandUnits rest

/-- Comparator of the unit sort in `getUnitItems`:
`(a, b) => (b.volume_cm3 || 0) - (a.volume_cm3 || 0)`, i.e. descending
volume. -/
def unitVolGe (a b : PackUnit) : Prop :=
  b.volume_cm3 ≤ a.volume_cm3

instance : DecidableRel unitVolGe := fun a b =>
  inferInstanceAs (Decidable (b.volume_cm3 ≤ a.volume_cm3))

/-- `getUnitItems(items)`: expand quantities into units, sort by volume
descending, and report whether any item carried dimensions. -/
def getUnitItems (items : List Item) : List PackUnit × Bool :=
  let hasItemDimensions := items.any (fun i => (getDimsCmFromUnknownItem i).isSome)
  let units := List.insertionSort unitVolGe (expandUnits items)
  (units, hasItemDimensions)

/-! ### Fit tests and the greedy packing loop (box-selection.ts) -/

/-- `fitsUnitInBox(unit, box)`: reject on the weight ceiling; accept a
dimension-less unit; otherwise compare sorted dimension triples. -/
def fitsUnitInBox (u : PackUnit) (box : DhlBox) : Bool :=
  if weightExceeds u.weight_kg box.max_weight_kg then false
  else
    match u.dims with
    | none => true
    | some d =>
      let innerSorted := sortDims (box.inner_cm.length, box.inner_cm.width, box.inner_cm.height)
      let unitSorted := sortDims (d.length_cm, d.width_cm, d.height_cm)
      tripleLe unitSorted innerSorted

/-- One open package: a box plus running weight / volume / unit-count
totals (`PackedPackage` in the source). -/
structure PackedPackage where
  box : DhlBox
  weight_kg : ℚ
  volume_cm3 : ℚ
  units : ℕ
deriving Repr, DecidableEq

/-- `fitsUnitInPackage(unit, pkg, hasItemDimensions)`: weight-ceiling check on
the accumulated weight; when no item in the call carries dimensions, or this
unit lacks them, accept on weight alone; otherwise check accumulated volume
and the sorted dimension triples. -/
def fitsUnitInPackage (u : PackUnit) (pkg : PackedPackage)
    (hasItemDimensions : Bool) : Bool :=
  if weightExceeds (pkg.weight_kg + u.weight_kg) pkg.box.max_weight_kg then false
  else if !hasItemDimensions then true
  else
    match u.dims with
    | none => true
    | some d =>
      if decide (boxVolume pkg.box < pkg.volume_cm3 + u.volume_cm3) then false
      else
        let innerSorted :=
          sortDims (pkg.box.inner_cm.length, pkg.box.inner_cm.width, pkg.box.inner_cm.height)
        let unitSorted := sortDims (d.length_cm, d.width_cm, d.height_cm)
        tripleLe unitSorted innerSorted

/-- Adding a unit to a package's running totals (the three `+=` updates). -/
def addUnitToPackage (u : PackUnit) (pkg : PackedPackage) : PackedPackage :=
  { pkg with
    weight_kg := pkg.weight_kg + u.weight_kg
    volume_cm3 := pkg.volume_cm3 + u.volume_cm3
    units := pkg.units + 1 }

/-- The first-fit pass over existing packages (`for (const pkg of packages)`
with `break` on success): `none` when no open package accepts the unit. -/
def placeInFirstFit (u : PackUnit) (hasItemDimensions : Bool) :
    List PackedPackage → Option (List PackedPackage)
  | [] => none
  | pkg :: rest =>
    if fitsUnitInPackage u pkg hasItemDimensions then
      some (addUnitToPackage u pkg :: rest)
    else
      match placeInFirstFit u hasItemDimensions rest with
      | some rest' => some (pkg :: rest')
      | none => none

/-- Mutable loop state of `packItemsIntoBoxes`: the open packages, the count
of units no box could take, and the largest-box-fallback flag. -/
structure PackState where
  packages : List PackedPackage
  unplacedUnits : ℕ
  usedFallbackLargest : Bool
deriving Repr, DecidableEq

/-- The body of `for (const unit of units)` in `packItemsIntoBoxes`:
first-fit into an open package, else a new package on the smallest fitting
box, else a new package on the largest box (fallback), else count the unit
as unplaced. -/
def packStep (sortedBoxes : List DhlBox) (hasItemDimensions : Bool)
    (st : PackState) (u : PackUnit) : PackState :=
  match placeInFirstFit u hasItemDimensions st.packages with
  | some pkgs => { st with packages := pkgs }
  | none =>
    match sortedBoxes.find? (fun b => fitsUnitInBox u b) with
    | some candidate =>
      { st with packages := st.packages ++ [⟨candidate, u.weight_kg, u.volume_cm3, 1⟩] }
    | none =>
      match sortedBoxes.getLast? with
      | some largest =>
        { st with
          usedFallbackLargest := true
          packages := st.packages ++ [⟨largest, u.weight_kg, u.volume_cm3, 1⟩] }
      | none => { st with unplacedUnits := st.unplacedUnits + 1 }

/-- Diagnostics record of `packItemsIntoBoxes`. -/
structure PackItemsDiagnostics where
  has_item_dimensions : Bool
  used_fallback_largest : Bool
  unplaced_units : ℕ
deriving Repr, DecidableEq

/-- Result record of `packItemsIntoBoxes`. -/
structure PackItemsIntoBoxesResult where
  packages : List PackedPackage
  total_weight_kg : ℚ
  diagnostics : PackItemsDiagnostics
deriving Repr, DecidableEq

/-- `packItemsIntoBoxes(items, boxes)`: total weight from the item reduce;
boxes sorted by interior volume ascending; units from `getUnitItems`; early
return when no box is configured; otherwise the greedy loop followed by the
missing-dimensions fallback flag. -/
def packItemsIntoBoxes (items : List Item) (boxes : List DhlBox) :
    PackItemsIntoBoxesResult :=
  let totalWeightKg := (items.map getWeightGramsFromUnknownItem).sum / 1000
  let sortedBoxes := List.insertionSort boxLe boxes
  let unitsAndDims := getUnitItems items
  let units := unitsAndDims.1
  let hasItemDimensions := unitsAndDims.2
  if sortedBoxes.length = 0 then
    { packages := []
      total_weight_kg := totalWeightKg
      diagnostics :=
        { has_item_dimensions := hasItemDimensions
          used_fallback_largest := true
          unplaced_units := units.length } }
  else
    let final := units.foldl (packStep sortedBoxes hasItemDimensions) ⟨[], 0, false⟩
    let anyMissingDims := hasItemDimensions && units.any (fun u => u.dims.isNone)
    { packages := final.packages
      total_weight_kg := totalWeightKg
      diagnostics :=
        { has_item_dimensions := hasItemDimensions
          used_fallback_largest := final.usedFallbackLargest || anyMissingDims
          unplaced_units := final.unplacedUnits } }

/-! ### Capability-based parcel-type selection (get-fulfillment-options, second copy) -/

/-- The dimension ceiling a capability tier may declare. -/
structure CapDimensions where
  maxLengthCm : ℚ
  maxWidthCm : ℚ
  maxHeightCm : ℚ
deriving Repr, DecidableEq

/-- The fields of `DHLCapability.parcelType` the selector reads (price is
never consulted). -/
structure CapParcelType where
  key : String
  minWeightKg : ℚ
  maxWeightKg : ℚ
  dimensions : Option CapDimensions := none
deriving Repr, DecidableEq

/-- The fields of a `DHLCapability` the selector reads: the product key (the
remaining product metadata, rank, route and options are never consulted). -/
structure DHLCapability where
  productKey : String
  parcelType : CapParcelType
deriving Repr, DecidableEq

/-- Package dimensions as passed in `PackageConstraints.dimensions_cm`. -/
structure PkgDims where
  length : ℚ
  width : ℚ
  height : ℚ
deriving Repr, DecidableEq

/-- `PackageConstraints`: a piece's weight (kg) and optional dimensions. -/
structure PackageConstraints where
  weight_kg : ℚ
  dimensions_cm : Option PkgDims := none
deriving Repr, DecidableEq

/-- `sort3(a, b, c)`: ascending sort of three numbers (another copy of the
sorted-triple helper, local to the capabilities selector). -/
def sort3 (a b c : ℚ) : ℚ × ℚ × ℚ :=
  let s := List.insertionSort (· ≤ ·) [a, b, c]
  (s.getD 0 0, s.getD 1 0, s.getD 2 0)

/-- `dimsFit(capDims, pkgDims)`: vacuously true when either side is absent,
otherwise the rotation-tolerant sorted-triple comparison. -/
def dimsFit (capDims : Option CapDimensions) (pkgDims : Option PkgDims) : Bool :=
  match capDims, pkgDims with
  | some cd, some pd =>
    tripleLe (sort3 pd.length pd.width pd.height)
      (sort3 cd.maxLengthCm cd.maxWidthCm cd.maxHeightCm)
  | _, _ => true

/-- `Math.max(...)` over a spread list. `Math.max()` of an empty spread is
negative infinity in JavaScript; both call sites guard against the empty
list, so the `0` placeholder is never reached. -/
def maxOfList : List ℚ → ℚ
  | [] => 0
  | x :: xs => xs.foldl max x

/-- `maxWeightKg` of the selector: the maximum single-package weight,
`Math.max(...packages.map((p) => p.weight_kg || 0))`. -/
def maxPackageWeightKg (packages : List PackageConstraints) : ℚ :=
  maxOfList (packages.map (·.weight_kg))

/-- The componentwise "max dims" envelope over the packages that declare
dimensions; absent when none does. -/
def maxPackageDims (packages : List PackageConstraints) : Option PkgDims :=
  let withDims := packages.filterMap (·.dimensions_cm)
  if withDims.length = 0 then none
  else
    some
      { length := maxOfList (withDims.map (·.length))
        width := maxOfList (withDims.map (·.width))
        height := maxOfList (withDims.map (·.height)) }

/-- Comparator of the capability sort: ascending `parcelType.maxWeightKg`. -/
def capLe (a b : DHLCapability) : Prop :=
  a.parcelType.maxWeightKg ≤ b.parcelType.maxWeightKg

instance : DecidableRel capLe := fun a b =>
  inferInstanceAs (Decidable (a.parcelType.maxWeightKg ≤ b.parcelType.maxWeightKg))

/-- The `find` predicate of the selector: when `maxWeightKg > 0`, the tier's
inclusive weight range must contain it; the dimension ceiling must pass
`dimsFit`. (The weight-range check is skipped entirely when
`maxWeightKg ≤ 0`.) -/
def capSuitable (maxWeightKg : ℚ) (maxDims : Option PkgDims)
    (c : DHLCapability) : Bool :=
  let weightOk : Bool :=
    if decide (0 < maxWeightKg) then
      decide (c.parcelType.minWeightKg ≤ maxWeightKg) &&
        decide (maxWeightKg ≤ c.parcelType.maxWeightKg)
    else true
  weightOk && dimsFit c.parcelType.dimensions maxDims

/-- The capability record the selector picks (`suitable` in the source). -/
def selectParcelTypeCapability (capabilities : List DHLCapability)
    (productKey : Option String) (packages : List PackageConstraints) :
    Option DHLCapability :=
  if capabilities.length = 0 then none
  else if packages.length = 0 then none
  else
    let relevant :=
      match productKey with
      | some k => capabilities.filter (fun c => c.productKey = k)
      | none => capabilities
    if relevant.length = 0 then none
    else
      let maxWeightKg := maxPackageWeightKg packages
      let maxDims := maxPackageDims packages
      let sorted := List.insertionSort capLe relevant
      sorted.find? (capSuitable maxWeightKg maxDims)

/-- `selectParcelTypeForPackagesFromCapabilities(capabilities, productKey,
packages)`: filter to the product, validate the heaviest piece's weight and
the dimension envelope against each tier ascending by max weight, and return
the first suitable tier's key. -/
def selectParcelTypeForPackagesFromCapabilities (capabilities : List DHLCapability)
    (productKey : Option String) (packages : List PackageConstraints) :
    Option String :=
  (selectParcelTypeCapability capabilities productKey packages).map
    (·.parcelType.key)

/-! ### Derived quantities used in the statements -/

/-- Number of quantity-expanded units of an items list. -/
def expandedUnitCount (items : List Item) : ℕ :=
  (items.map itemQuantity).sum

/-- Sum of `weight_kg` over a package list. -/
def sumWeight (pkgs : List PackedPackage) : ℚ :=
  (pkgs.map PackedPackage.weight_kg).sum

/-- Sum of the `units` fields over a package list. -/
def sumUnits (pkgs : List PackedPackage) : ℕ :=
  (pkgs.map PackedPackage.units).sum

/-! ### Concrete inputs for the scenario claims -/

/-- The tier list of spec Scenario D. -/
def scenarioD_tiers : List ParcelTypeConfig :=
  [⟨"SMALL", 0, 2⟩, ⟨"MEDIUM", 2, 10⟩, ⟨"LARGE", 10, 30⟩]

/-- An item carrying both a `line_item.product.weight` (100 g) and a
top-level `variant.weight` (200 g), which separates the source's resolution
order from the spec's. -/
def itemBothWeights : Item :=
  { line_item := some { product := some { weight := some 100 } }
    variant := some { weight := some 200 } }

/-- Scenario A's item: quantity 3, 500 g per unit, no dimensions. -/
def scenarioA_item : Item :=
  { quantity := some 3, variant := some { weight := some 500 } }

/-- Scenario A's single box: 1 kg weight ceiling. -/
def scenarioA_box : DhlBox :=
  { inner_cm := ⟨10, 10, 10⟩, max_weight_kg := some 1 }

/-- Scenario E's capability tiers for product `X`. -/
def scenarioE_caps : List DHLCapability :=
  [⟨"X", ⟨"S", 0, 5, none⟩⟩, ⟨"X", ⟨"L", 5, 10, none⟩⟩]

/-- Scenario E's packages: 3 kg and 7 kg, no dimensions. -/
def scenarioE_pkgs : List PackageConstraints :=
  [⟨3, none⟩, ⟨7, none⟩]

/-- A single capability whose tier weight range `[1, 5]` excludes 0. -/
def capsWeightGap : List DHLCapability :=
  [⟨"X", ⟨"T", 1, 5, none⟩⟩]

/-- A single package of weight 0 (every package weight absent or zero maps
to 0 through `p.weight_kg || 0`). -/
def pkgsZeroWeight : List PackageConstraints :=
  [⟨0, none⟩]

/-- The box of property P3: interior `(20, 10, 6)`, no weight ceiling. -/
def rotationBox : DhlBox :=
  { inner_cm := ⟨20, 10, 6⟩ }

/-! ### Order-theoretic facts about the comparators -/

instance : IsTotal ParcelTypeConfig tierLe :=
  ⟨fun a b => le_total a.max_weight_kg b.max_weight_kg⟩

instance : IsTrans ParcelTypeConfig tierLe :=
  ⟨fun _ _ _ h₁ h₂ => le_trans h₁ h₂⟩

instance : IsTotal DHLCapability capLe :=
  ⟨fun a b => le_total a.parcelType.maxWeightKg b.parcelType.maxWeightKg⟩

instance : IsTrans DHLCapability capLe :=
  ⟨fun _ _ _ h₁ h₂ => le_trans h₁ h₂⟩

instance : IsTotal DhlBox boxLe :=
  ⟨fun a b => le_total (boxVolume a) (boxVolume b)⟩

instance : IsTrans DhlBox boxLe :=
  ⟨fun _ _ _ h₁ h₂ => le_trans h₁ h₂⟩

instance : IsTotal PackUnit unitVolGe :=
  ⟨fun a b => (le_total b.volume_cm3 a.volume_cm3).imp id id⟩

instance : IsTrans PackUnit unitVolGe :=
  ⟨fun _ _ _ h₁ h₂ => le_trans h₂ h₁⟩

/-! ### Theorems -/

/-- In a list that is pairwise related by `R`, the element `find?` returns is
`R`-below every element of the list satisfying the predicate. -/
theorem find?_min_of_pairwise {α : Type} {R : α → α → Prop} {P : α → Bool}
    (hrefl : ∀ x, R x x) :
    ∀ {l : List α} {t : α}, List.Pairwise R l → l.find? P = some t →
      ∀ x ∈ l, P x = true → R t x := by
  intro l
  induction l with
  | nil => intro t _ hf; simp at hf
  | cons a l ih =>
    intro t hp hf x hx hPx
    rcases List.pairwise_cons.mp hp with ⟨ha, hl⟩
    by_cases hPa : P a = true
    · rw [List.find?_cons_of_pos _ hPa] at hf
      injection hf with h
      subst h
      rcases List.mem_cons.mp hx with rfl | hxl
      · exact hrefl x
      · exact ha x hxl
    · rw [List.find?_cons_of_neg _ hPa] at hf
      rcases List.mem_cons.mp hx with rfl | hxl
      · exact absurd hPx hPa
      · exact ih hl hf x hxl hPx

/-- C1: for the Scenario D tier list and `weightKg = 2` the source returns
`"SMALL"`, not `"MEDIUM"`: SMALL's inclusive upper bound already accepts the
weight and SMALL sorts first. This refutes the claim as stated. -/
theorem scenarioD_not_medium :
    selectOptimalParcelType scenarioD_tiers 2 ≠ some "MEDIUM" := by
  decide

/-- C1 (amended): for the tier list
`[{SMALL, 0, 2}, {MEDIUM, 2, 10}, {LARGE, 10, 30}]` and `weightKg = 2`,
`selectOptimalParcelType` returns the key `"SMALL"` (both tier bounds are
inclusive, so SMALL matches and is first in ascending max-weight order). -/
theorem scenarioD_returns_small :
    selectOptimalParcelType scenarioD_tiers 2 = some "SMALL" := by
  decide

/-- C2: whenever `selectOptimalParcelType` returns a key, some tier of the
input list carries that key, its inclusive weight range contains the weight,
and its `max_weight_kg` is minimal among all tiers of the list whose range
contains the weight; and when no tier's range contains the weight, the
function returns `none`. -/
theorem selectOptimalParcelType_min_max (tiers : List ParcelTypeConfig) (w : ℚ) :
    (∀ k, selectOptimalParcelType tiers w = some k →
      ∃ t, t ∈ tiers ∧ t.key = k ∧ t.min_weight_kg ≤ w ∧ w ≤ t.max_weight_kg ∧
        ∀ t' ∈ tiers, t'.min_weight_kg ≤ w → w ≤ t'.max_weight_kg →
          t.max_weight_kg ≤ t'.max_weight_kg) ∧
    ((∀ t ∈ tiers, ¬(t.min_weight_kg ≤ w ∧ w ≤ t.max_weight_kg)) →
      selectOptimalParcelType tiers w = none) := by
  have hperm := List.perm_insertionSort tierLe tiers
  have hsorted : List.Pairwise tierLe (List.insertionSort tierLe tiers) :=
    List.sorted_insertionSort tierLe tiers
  constructor
  · intro k hk
    simp only [selectOptimalParcelType] at hk
    rcases Option.map_eq_some'.mp hk with ⟨t, hfind, hkey⟩
    simp only [selectOptimalParcelTypeTier] at hfind
    have hmem : t ∈ tiers := hperm.mem_iff.mp (List.mem_of_find?_eq_some hfind)
    have hP : tierHolds w t = true := List.find?_some hfind
    simp only [tierHolds, Bool.and_eq_true, decide_eq_true_eq] at hP
    refine ⟨t, hmem, hkey, hP.1, hP.2, ?_⟩
    intro t' ht' h1 h2
    have ht's : t' ∈ List.insertionSort tierLe tiers := hperm.mem_iff.mpr ht'
    refine find?_min_of_pairwise (R := tierLe) (fun x => le_refl _) hsorted hfind t' ht's ?_
    simp only [tierHolds, Bool.and_eq_true, decide_eq_true_eq]
    exact ⟨h1, h2⟩
  · intro h
    simp only [selectOptimalParcelType, selectOptimalParcelTypeTier]
    have hnone : (List.insertionSort tierLe tiers).find? (tierHolds w) = none := by
      rw [List.find?_eq_none]
      intro x hx hP
      simp only [tierHolds, Bool.and_eq_true, decide_eq_true_eq] at hP
      exact h x (hperm.mem_iff.mp hx) hP
    rw [hnone]
    rfl

/-- Witness for C2 at Scenario D's tiers and weight 2. -/
theorem selectOptimalParcelType_min_max_witness :
    selectOptimalParcelType scenarioD_tiers 2 = some "SMALL" ∧
    ∃ t, t ∈ scenarioD_tiers ∧ t.key = "SMALL" ∧ t.min_weight_kg ≤ 2 ∧
      (2 : ℚ) ≤ t.max_weight_kg ∧
      ∀ t' ∈ scenarioD_tiers, t'.min_weight_kg ≤ 2 → (2 : ℚ) ≤ t'.max_weight_kg →
        t.max_weight_kg ≤ t'.max_weight_kg :=
  ⟨by decide, (selectOptimalParcelType_min_max scenarioD_tiers 2).1 "SMALL" (by decide)⟩

unseal Rat.mul Rat.inv Rat.add Rat.sub in
/-- C3: the source does not try the item's own variant weight first. On an
item carrying both `line_item.product.weight = 100` and `variant.weight = 200`
the code resolves 100 (the nested line_item product), while the claimed
precedence (variant weight first) would resolve 200. -/
theorem weight_resolution_counterexample :
    itemW3 itemBothWeights = some 200 ∧
    specOrderWeightGrams itemBothWeights = 200 ∧
    getWeightGramsFromUnknownItem itemBothWeights = 100 ∧
    getWeightGramsFromUnknownItem itemBothWeights ≠ specOrderWeightGrams itemBothWeights := by
  decide

/-- C3 (amended): the per-unit weight is resolved by the fixed precedence
`line_item.variant.weight`, then `line_item.product.weight`, then the item's
`variant.weight`, taking the first numeric value (0 grams when none is
present): the item-level resolver multiplies exactly that value by the
quantity, and every unit `getUnitItems` expands carries exactly that value
divided by 1000. -/
theorem weight_resolution_chain (item : Item) :
    getWeightGramsFromUnknownItem item =
      resolveWeightGrams item * (itemQuantity item : ℚ) ∧
    ∀ u ∈ (getUnitItems [item]).1, u.weight_kg = resolveWeightGrams item / 1000 := by
  constructor
  · rcases h1 : itemW1 item with _ | w1 <;>
      rcases h2 : itemW2 item with _ | w2 <;>
      rcases h3 : itemW3 item with _ | w3 <;>
      simp [getWeightGramsFromUnknownItem, resolveWeightGrams, h1, h2, h3]
  · intro u hu
    simp only [getUnitItems] at hu
    have hmem : u ∈ expandUnits [item] :=
      (List.perm_insertionSort unitVolGe (expandUnits [item])).mem_iff.mp hu
    simp only [expandUnits, List.append_nil] at hmem
    have heq := List.eq_of_mem_replicate hmem
    subst heq
    rcases h1 : itemW1 item with _ | w1 <;>
      rcases h2 : itemW2 item with _ | w2 <;>
      rcases h3 : itemW3 item with _ | w3 <;>
      simp [mkUnit, resolveWeightGrams, h1, h2, h3]

unseal Rat.mul Rat.inv Rat.add Rat.sub in
/-- Witness for C3's amended chain at the two-weight item (quantity 1,
resolved weight 100 g, so the single expanded unit weighs 1/10 kg). -/
theorem weight_resolution_chain_witness :
    getWeightGramsFromUnknownItem itemBothWeights =
      resolveWeightGrams itemBothWeights * (itemQuantity itemBothWeights : ℚ) ∧
    (⟨1 / 10, none, 0⟩ : PackUnit).weight_kg = resolveWeightGrams itemBothWeights / 1000 :=
  ⟨(weight_resolution_chain itemBothWeights).1,
   (weight_resolution_chain itemBothWeights).2 ⟨1 / 10, none, 0⟩ (by decide)⟩

/-- Ascending sorts of permuted lists of rationals agree. -/
theorem sortList3_perm_eq {l l' : List ℚ} (h : l.Perm l') :
    sortList3 l = sortList3 l' :=
  List.eq_of_perm_of_sorted
    ((List.perm_insertionSort _ l).trans (h.trans (List.perm_insertionSort _ l').symm))
    (List.sorted_insertionSort _ l) (List.sorted_insertionSort _ l')

/-- C8: the unit-in-box fit test is invariant under any permutation of the
unit's dimensions (both triples are sorted ascending before the componentwise
comparison), and the concrete unit `(10, 20, 5)` is accepted by the box with
interior `(20, 10, 6)`. -/
theorem fitsUnitInBox_rotation :
    (∀ (w vol : ℚ) (d d' : ItemDimsCm) (box : DhlBox),
        [d.length_cm, d.width_cm, d.height_cm].Perm
          [d'.length_cm, d'.width_cm, d'.height_cm] →
        fitsUnitInBox ⟨w, some d, vol⟩ box = fitsUnitInBox ⟨w, some d', vol⟩ box) ∧
    fitsUnitInBox ⟨0, some ⟨10, 20, 5⟩, 0⟩ rotationBox = true := by
  constructor
  · intro w vol d d' box hperm
    have hsort : sortDims (d.length_cm, d.width_cm, d.height_cm) =
        sortDims (d'.length_cm, d'.width_cm, d'.height_cm) := by
      simp only [sortDims]
      rw [sortList3_perm_eq hperm]
    simp only [fitsUnitInBox, hsort]
  · decide

/-- Witness for C8's invariance half: the concrete rotations `(10, 20, 5)`
and `(5, 10, 20)` give the same verdict against the P3 box. -/
theorem fitsUnitInBox_rotation_witness :
    fitsUnitInBox ⟨0, some ⟨10, 20, 5⟩, 0⟩ rotationBox =
      fitsUnitInBox ⟨0, some ⟨5, 10, 20⟩, 0⟩ rotationBox :=
  fitsUnitInBox_rotation.1 0 0 ⟨10, 20, 5⟩ ⟨5, 10, 20⟩ rotationBox (by decide)

/-- C6: with packages of 3 kg and 7 kg and capability tiers S `[0, 5]` and
L `[5, 10]` for product `X`, the selector validates the heaviest single
package (7 kg) and returns `"L"`. -/
theorem scenarioE_selects_heaviest :
    selectParcelTypeForPackagesFromCapabilities scenarioE_caps (some "X") scenarioE_pkgs =
      some "L" ∧
    maxPackageWeightKg scenarioE_pkgs = 7 := by
  decide

/-- C7: when every package weighs 0, the weight-range check is skipped
(`maxWeightKg > 0` guard), so the selector returns a tier whose range
`[1, 5]` does not contain the maximum package weight 0. This refutes the
claim as stated. -/
theorem capability_zero_weight_counterexample :
    selectParcelTypeForPackagesFromCapabilities capsWeightGap (some "X") pkgsZeroWeight =
      some "T" ∧
    capsWeightGap.map (fun c => c.parcelType.key) = ["T"] ∧
    capsWeightGap.map (fun c => c.parcelType.minWeightKg) = [1] ∧
    maxPackageWeightKg pkgsZeroWeight < 1 := by
  decide

/-- The element found among the sorted relevant capabilities is one of the
original capabilities and, when the maximum package weight is positive, its
tier weight range contains that weight. -/
theorem capability_find_spec {relevant caps : List DHLCapability}
    (hsub : ∀ x ∈ relevant, x ∈ caps) {mw : ℚ} {md : Option PkgDims}
    {c : DHLCapability}
    (hfind : (List.insertionSort capLe relevant).find? (capSuitable mw md) = some c) :
    c ∈ caps ∧
      (0 < mw → c.parcelType.minWeightKg ≤ mw ∧ mw ≤ c.parcelType.maxWeightKg) := by
  have hmem : c ∈ caps :=
    hsub c ((List.perm_insertionSort capLe relevant).mem_iff.mp
      (List.mem_of_find?_eq_some hfind))
  refine ⟨hmem, fun h0 => ?_⟩
  have hsuit : capSuitable mw md c = true := List.find?_some hfind
  have hd : decide (0 < mw) = true := decide_eq_true h0
  simp only [capSuitable, hd, if_true, Bool.and_eq_true, decide_eq_true_eq] at hsuit
  exact hsuit.1

/-- C7 (amended): whenever `selectParcelTypeForPackagesFromCapabilities`
returns a tier key, some capability in the input list carries that key and —
provided the maximum single-package weight is positive — that weight lies
within the tier's inclusive `[minWeightKg, maxWeightKg]` range. (When every
package weighs 0 the weight-range check is skipped by the `maxWeightKg > 0`
guard, which is what the counterexample exploits.) -/
theorem selectParcelType_weight_in_range
    (caps : List DHLCapability) (productKey : Option String)
    (packages : List PackageConstraints) (k : String)
    (hk : selectParcelTypeForPackagesFromCapabilities caps productKey packages = some k) :
    ∃ c, c ∈ caps ∧ c.parcelType.key = k ∧
      (0 < maxPackageWeightKg packages →
        c.parcelType.minWeightKg ≤ maxPackageWeightKg packages ∧
        maxPackageWeightKg packages ≤ c.parcelType.maxWeightKg) := by
  cases productKey with
  | none =>
    simp only [selectParcelTypeForPackagesFromCapabilities] at hk
    rcases Option.map_eq_some'.mp hk with ⟨c, hfind, hkey⟩
    simp only [selectParcelTypeCapability] at hfind
    split at hfind
    · exact absurd hfind (by simp)
    · split at hfind
      · exact absurd hfind (by simp)
      · rcases capability_find_spec (fun x hx => hx) hfind with ⟨hmem, hrange⟩
        exact ⟨c, hmem, hkey, hrange⟩
  | some pk =>
    simp only [selectParcelTypeForPackagesFromCapabilities] at hk
    rcases Option.map_eq_some'.mp hk with ⟨c, hfind, hkey⟩
    simp only [selectParcelTypeCapability] at hfind
    split at hfind
    · exact absurd hfind (by simp)
    · split at hfind
      · exact absurd hfind (by simp)
      · split at hfind
        · exact absurd hfind (by simp)
        · rcases capability_find_spec
            (fun x hx => (List.mem_filter.mp hx).1) hfind with ⟨hmem, hrange⟩
          exact ⟨c, hmem, hkey, hrange⟩

/-- Witness for C7's amended range property at Scenario E (maximum package
weight 7, returned tier `"L"` with range `[5, 10]`). -/
theorem selectParcelType_weight_in_range_witness :
    ∃ c, c ∈ scenarioE_caps ∧ c.parcelType.key = "L" ∧
      (0 < maxPackageWeightKg scenarioE_pkgs →
        c.parcelType.minWeightKg ≤ maxPackageWeightKg scenarioE_pkgs ∧
        maxPackageWeightKg scenarioE_pkgs ≤ c.parcelType.maxWeightKg) :=
  selectParcelType_weight_in_range scenarioE_caps (some "X") scenarioE_pkgs "L" (by decide)

/-- The weight of an expanded unit is the resolved grams over 1000. -/
theorem mkUnit_weight (item : Item) :
    (mkUnit item).weight_kg = resolveWeightGrams item / 1000 := by
  rcases h1 : itemW1 item with _ | w1 <;>
    rcases h2 : itemW2 item with _ | w2 <;>
    rcases h3 : itemW3 item with _ | w3 <;>
    simp [mkUnit, resolveWeightGrams, h1, h2, h3]

/-- The item-level weight is the resolved grams times the quantity. -/
theorem getWeightGrams_eq (item : Item) :
    getWeightGramsFromUnknownItem item =
      resolveWeightGrams item * (itemQuantity item : ℚ) := by
  rcases h1 : itemW1 item with _ | w1 <;>
    rcases h2 : itemW2 item with _ | w2 <;>
    rcases h3 : itemW3 item with _ | w3 <;>
    simp [getWeightGramsFromUnknownItem, resolveWeightGrams, h1, h2, h3]

/-- Quantity expansion produces exactly the summed quantities. -/
theorem length_expandUnits (items : List Item) :
    (expandUnits items).length = expandedUnitCount items := by
  induction items with
  | nil => rfl
  | cons item rest ih =>
    simp only [expandUnits, List.length_append, List.length_replicate, ih]
    simp [expandedUnitCount]

/-- The sorted unit list of `getUnitItems` has one entry per expanded unit. -/
theorem getUnitItems_length (items : List Item) :
    (getUnitItems items).1.length = expandedUnitCount items := by
  simp only [getUnitItems]
  rw [(List.perm_insertionSort unitVolGe (expandUnits items)).length_eq]
  exact length_expandUnits items

/-- The expanded units' weights sum to the item-level total. -/
theorem sum_expandUnits_weight (items : List Item) :
    ((expandUnits items).map PackUnit.weight_kg).sum =
      (items.map getWeightGramsFromUnknownItem).sum / 1000 := by
  induction items with
  | nil => simp [expandUnits]
  | cons item rest ih =>
    simp only [expandUnits, List.map_append, List.sum_append, List.map_cons,
      List.sum_cons, ih, List.map_replicate, List.sum_replicate]
    rw [mkUnit_weight, getWeightGrams_eq, nsmul_eq_mul]
    ring

/-- Sorting the units does not change the weight sum. -/
theorem getUnitItems_weight_sum (items : List Item) :
    ((getUnitItems items).1.map PackUnit.weight_kg).sum =
      (items.map getWeightGramsFromUnknownItem).sum / 1000 := by
  simp only [getUnitItems]
  rw [List.Perm.sum_eq
    (List.Perm.map PackUnit.weight_kg (List.perm_insertionSort unitVolGe (expandUnits items)))]
  exact sum_expandUnits_weight items

/-- C4: with an empty box list (after sorting, length 0) the packer returns
no packages, reports the largest-box fallback, and counts every expanded
unit as unplaced; the model is a total function, so no exception can occur. -/
theorem packItemsIntoBoxes_no_boxes (items : List Item) :
    (packItemsIntoBoxes items []).packages = [] ∧
    (packItemsIntoBoxes items []).diagnostics.used_fallback_largest = true ∧
    (packItemsIntoBoxes items []).diagnostics.unplaced_units = expandedUnitCount items := by
  have hnil : List.insertionSort boxLe ([] : List DhlBox) = [] := rfl
  simp only [packItemsIntoBoxes, hnil, List.length_nil, if_pos]
  exact ⟨trivial, trivial, getUnitItems_length items⟩

/-- A successful first-fit placement adds the unit's weight to the package
totals and one to the unit count. -/
theorem placeInFirstFit_sums {u : PackUnit} {hd : Bool} :
    ∀ {pkgs pkgs' : List PackedPackage},
      placeInFirstFit u hd pkgs = some pkgs' →
      sumWeight pkgs' = sumWeight pkgs + u.weight_kg ∧
      sumUnits pkgs' = sumUnits pkgs + 1 := by
  intro pkgs
  induction pkgs with
  | nil =>
    intro pkgs' h
    simp [placeInFirstFit] at h
  | cons pkg rest ih =>
    intro pkgs' h
    simp only [placeInFirstFit] at h
    split at h
    · injection h with h
      subst h
      constructor
      · simp only [sumWeight, List.map_cons, List.sum_cons, addUnitToPackage]
        ring
      · simp only [sumUnits, List.map_cons, List.sum_cons, addUnitToPackage]
        omega
    · cases hrec : placeInFirstFit u hd rest with
      | none =>
        rw [hrec] at h
        exact absurd h (by simp)
      | some rest' =>
        rw [hrec] at h
        injection h with h
        subst h
        rcases ih hrec with ⟨hw, hu⟩
        constructor
        · simp only [sumWeight, List.map_cons, List.sum_cons] at hw ⊢
          rw [hw]
          ring
        · simp only [sumUnits, List.map_cons, List.sum_cons] at hu ⊢
          omega

/-- With at least one box available, a packing step never increments the
unplaced count, and adds exactly one unit and its weight to the packages. -/
theorem packStep_counts (sortedBoxes : List DhlBox) (hd : Bool)
    (hne : sortedBoxes ≠ []) (st : PackState) (u : PackUnit) :
    (packStep sortedBoxes hd st u).unplacedUnits = st.unplacedUnits ∧
    sumWeight (packStep sortedBoxes hd st u).packages =
      sumWeight st.packages + u.weight_kg ∧
    sumUnits (packStep sortedBoxes hd st u).packages = sumUnits st.packages + 1 := by
  cases hpf : placeInFirstFit u hd st.packages with
  | some pkgs =>
    rcases placeInFirstFit_sums hpf with ⟨hw, hu⟩
    simp only [packStep, hpf]
    exact ⟨trivial, hw, hu⟩
  | none =>
    cases hfind : sortedBoxes.find? (fun b => fitsUnitInBox u b) with
    | some candidate =>
      simp only [packStep, hpf, hfind]
      refine ⟨trivial, ?_, ?_⟩
      · simp [sumWeight]
      · simp [sumUnits]
    | none =>
      cases hlast : sortedBoxes.getLast? with
      | some largest =>
        simp only [packStep, hpf, hfind, hlast]
        refine ⟨trivial, ?_, ?_⟩
        · simp [sumWeight]
        · simp [sumUnits]
      | none =>
        exact absurd (List.getLast?_eq_none_iff.mp hlast) hne

/-- Folding the packing step over any unit list keeps the unplaced count and
accumulates every unit and its weight, as long as a box exists. -/
theorem foldl_packStep_counts (sortedBoxes : List DhlBox) (hd : Bool)
    (hne : sortedBoxes ≠ []) :
    ∀ (units : List PackUnit) (st : PackState),
      (units.foldl (packStep sortedBoxes hd) st).unplacedUnits = st.unplacedUnits ∧
      sumWeight (units.foldl (packStep sortedBoxes hd) st).packages =
        sumWeight st.packages + (units.map PackUnit.weight_kg).sum ∧
      sumUnits (units.foldl (packStep sortedBoxes hd) st).packages =
        sumUnits st.packages + units.length := by
  intro units
  induction units with
  | nil =>
    intro st
    simp
  | cons u rest ih =>
    intro st
    simp only [List.foldl_cons, List.map_cons, List.sum_cons, List.length_cons]
    rcases packStep_counts sortedBoxes hd hne st u with ⟨h1, h2, h3⟩
    rcases ih (packStep sortedBoxes hd st u) with ⟨g1, g2, g3⟩
    refine ⟨g1.trans h1, ?_, ?_⟩
    · rw [g2, h2]
      ring
    · rw [g3, h3]
      omega

/-- A nonempty box list stays nonempty after the volume sort. -/
theorem insertionSort_boxes_ne {boxes : List DhlBox} (hboxes : boxes ≠ []) :
    List.insertionSort boxLe boxes ≠ [] := by
  intro h
  apply hboxes
  have hlen := (List.perm_insertionSort boxLe boxes).length_eq
  rw [h] at hlen
  exact List.length_eq_zero.mp hlen.symm

/-- C10: with at least one configured box, every expanded unit is placed:
the unplaced count is 0 (the increment branch is unreachable because the
largest-box fallback always succeeds) and the package unit counts sum to the
number of quantity-expanded units. -/
theorem packItemsIntoBoxes_all_placed (items : List Item) (boxes : List DhlBox)
    (hboxes : boxes ≠ []) :
    (packItemsIntoBoxes items boxes).diagnostics.unplaced_units = 0 ∧
    sumUnits (packItemsIntoBoxes items boxes).packages = expandedUnitCount items := by
  have hsne := insertionSort_boxes_ne hboxes
  have hlen : ¬(List.insertionSort boxLe boxes).length = 0 :=
    fun h => hsne (List.length_eq_zero.mp h)
  simp only [packItemsIntoBoxes, hlen, if_false]
  rcases foldl_packStep_counts (List.insertionSort boxLe boxes)
    (getUnitItems items).2 hsne (getUnitItems items).1 ⟨[], 0, false⟩ with ⟨h1, _, h3⟩
  refine ⟨h1, ?_⟩
  rw [h3]
  simpa [sumUnits] using getUnitItems_length items

unseal Rat.mul Rat.inv Rat.add Rat.sub in
/-- Witness for C10 at Scenario A's single item and box. -/
theorem packItemsIntoBoxes_all_placed_witness :
    (packItemsIntoBoxes [scenarioA_item] [scenarioA_box]).diagnostics.unplaced_units = 0 ∧
    sumUnits (packItemsIntoBoxes [scenarioA_item] [scenarioA_box]).packages =
      expandedUnitCount [scenarioA_item] :=
  packItemsIntoBoxes_all_placed [scenarioA_item] [scenarioA_box] (by decide)

/-- C5: with at least one configured box and every unit placed, the package
weights sum exactly to the reported total weight. -/
theorem packItemsIntoBoxes_weight_conservation (items : List Item)
    (boxes : List DhlBox) (hboxes : boxes ≠ [])
    (hzero : (packItemsIntoBoxes items boxes).diagnostics.unplaced_units = 0) :
    sumWeight (packItemsIntoBoxes items boxes).packages =
      (packItemsIntoBoxes items boxes).total_weight_kg := by
  have hsne := insertionSort_boxes_ne hboxes
  have hlen : ¬(List.insertionSort boxLe boxes).length = 0 :=
    fun h => hsne (List.length_eq_zero.mp h)
  simp only [packItemsIntoBoxes, hlen, if_false]
  rcases foldl_packStep_counts (List.insertionSort boxLe boxes)
    (getUnitItems items).2 hsne (getUnitItems items).1 ⟨[], 0, false⟩ with ⟨_, h2, _⟩
  rw [h2]
  simpa [sumWeight] using getUnitItems_weight_sum items

unseal Rat.mul Rat.inv Rat.add Rat.sub in
/-- Witness for C5 at Scenario A's single item and box. -/
theorem packItemsIntoBoxes_weight_conservation_witness :
    sumWeight (packItemsIntoBoxes [scenarioA_item] [scenarioA_box]).packages =
      (packItemsIntoBoxes [scenarioA_item] [scenarioA_box]).total_weight_kg :=
  packItemsIntoBoxes_weight_conservation [scenarioA_item] [scenarioA_box]
    (by decide) (by decide)

unseal Rat.mul Rat.inv Rat.add Rat.sub in
/-- C9: three dimension-less 0.5 kg units against a single 1.0 kg-ceiling box
pack into exactly two packages — 2 units at 1.0 kg and 1 unit at 0.5 kg —
with `has_item_dimensions = false` (and no fallback, no unplaced units). -/
theorem scenarioA_packing :
    packItemsIntoBoxes [scenarioA_item] [scenarioA_box] =
      { packages := [⟨scenarioA_box, 1, 0, 2⟩, ⟨scenarioA_box, 1 / 2, 0, 1⟩]
        total_weight_kg := 3 / 2
        diagnostics := ⟨false, false, 0⟩ } := by
  decide

end DhlPlugin
